import Mathlib

/-!
Verification of the Extended-Scheduler core (Job execution loop and the four
Trigger variants) against its specification.  Times are modelled as rationals
(the code uses seconds-since-epoch floats; Timestamp triggers store integer
milliseconds).  Each definition is a shallow embedding of the Python source it
names in its doc comment.
-/

namespace ExtScheduler

/-- Modelled from the spec: the `TriggerType` enum (src/data/TriggerType.py is
not present under src/); its members are the ones used by Job.py and the four
trigger classes. -/
inductive TriggerType
| TIMESTAMP
| INTERVAL
| ONE_TIME
| CRON
deriving DecidableEq

/-- Modelled from the spec: the `JobStatus` enum (src/data/JobStatus.py is not
present under src/); members per spec section 3: RUNNING, PAUSED, COMPLETED,
REMOVED. -/
inductive JobStatus
| RUNNING
| PAUSED
| COMPLETED
| REMOVED
deriving DecidableEq

/-- Mutable state of `TimestampTrigger` (src/triggers/TimestampTrigger.py):
a list of integer-millisecond timestamps and a cursor index. -/
structure TimestampState where
  timestamps : List ℤ
  current_index : ℕ
deriving DecidableEq

/-- Mutable state of `IntervalTrigger` (src/triggers/IntervalTrigger.py):
period, optional run cap, run count, start time, and the anchor
`next_run_time`. -/
structure IntervalState where
  interval_seconds : ℚ
  max_runs : Option ℕ
  run_count : ℕ
  start_time : ℚ
  next_run_time : ℚ
deriving DecidableEq

/-- Mutable state of `OneTimeTrigger` (src/triggers/OneTimeTrigger.py):
the target instant and the executed flag. -/
structure OneTimeState where
  run_time : ℚ
  executed : Bool
deriving DecidableEq

/-- Mutable state of `CronTrigger` (src/triggers/CronTrigger.py).  The external
croniter object is modelled, per the spec (sections 3 and 9), as a strictly
consumed cursor into the sequence of cron occurrence instants: `schedule n` is
the n-th occurrence after the configured start time and `cursor` is the index
the croniter object has reached; `croniter.get_next` returns the occurrence at
the cursor and advances it. -/
structure CronState where
  schedule : ℕ → ℚ
  max_runs : Option ℕ
  run_count : ℕ
  cursor : ℕ

/-- `sorted(timestamps)` in `TimestampTrigger.__init__`: insert one element
into an ascending list. -/
def insertInt (x : ℤ) : List ℤ → List ℤ
| [] => [x]
| y :: ys => if x ≤ y then x :: y :: ys else y :: insertInt x ys

/-- `sorted(timestamps)` in `TimestampTrigger.__init__`: ascending insertion
sort. -/
def sortInts : List ℤ → List ℤ
| [] => []
| x :: xs => insertInt x (sortInts xs)

/-- `TimestampTrigger.__init__`: store the sorted millisecond timestamps with
the cursor at 0. -/
def mkTimestampTrigger (timestamps : List ℤ) : TimestampState :=
  { timestamps := sortInts timestamps, current_index := 0 }

/-- `IntervalTrigger.__init__` (with the `start_time or time.time()` default
already resolved to a value): run count 0 and anchor at the start time.  No
validation of `interval_seconds` is performed. -/
def mkIntervalTrigger (interval_seconds : ℚ) (max_runs : Option ℕ)
    (start_time : ℚ) : IntervalState :=
  { interval_seconds := interval_seconds, max_runs := max_runs, run_count := 0,
    start_time := start_time, next_run_time := start_time }

/-- `OneTimeTrigger.__init__` (datetime inputs already converted to an
instant): executed flag cleared. -/
def mkOneTimeTrigger (run_at : ℚ) : OneTimeState :=
  { run_time := run_at, executed := false }

/-- `CronTrigger.__init__`: run count 0 and a fresh croniter cursor at the
start of the occurrence sequence. -/
def mkCronTrigger (schedule : ℕ → ℚ) (max_runs : Option ℕ) : CronState :=
  { schedule := schedule, max_runs := max_runs, run_count := 0, cursor := 0 }

/-- The run-cap test `self.max_runs is not None and self.run_count >=
self.max_runs` of `IntervalTrigger`. -/
def intervalCapped (s : IntervalState) : Bool :=
  match s.max_runs with
  | some m => decide (m ≤ s.run_count)
  | none => false

/-- The identical run-cap test of `CronTrigger`. -/
def cronCapped (s : CronState) : Bool :=
  match s.max_runs with
  | some m => decide (m ≤ s.run_count)
  | none => false

/-- The anchor-advance loop of `IntervalTrigger.get_next_run_time`
(`while self.next_run_time <= after_time: self.next_run_time +=
self.interval_seconds`), fuel-indexed: `none` means the loop did not reach its
exit condition within `fuel` iterations. -/
def advanceAnchor (period after : ℚ) : ℕ → ℚ → Option ℚ
| 0, anchor => if anchor ≤ after then none else some anchor
| n + 1, anchor =>
    if anchor ≤ after then advanceAnchor period after n (anchor + period)
    else some anchor

/-- Iteration budget sufficient for the anchor-advance loop whenever the
period is positive. -/
def fuelFor (period anchor after : ℚ) : ℕ :=
  if 0 < period then (⌈(after - anchor) / period⌉).toNat + 1 else 0

/-- `IntervalTrigger.get_next_run_time`: `none` at the outer level marks a
diverging anchor-advance loop; otherwise the pair of the returned optional
instant and the post-call state. -/
def intervalGetNext (s : IntervalState) (after : ℚ) :
    Option (Option ℚ × IntervalState) :=
  if intervalCapped s then some (none, s)
  else
    match advanceAnchor s.interval_seconds after
        (fuelFor s.interval_seconds s.next_run_time after) s.next_run_time with
    | some r => some (some r, { s with next_run_time := r })
    | none => none

/-- `IntervalTrigger.is_finished`. -/
def intervalIsFinished (s : IntervalState) : Bool := intervalCapped s

/-- `IntervalTrigger.mark_executed`. -/
def intervalMarkExecuted (s : IntervalState) : IntervalState :=
  { s with run_count := s.run_count + 1 }

/-- `IntervalTrigger.reset`: run count 0, anchor back to the start time. -/
def intervalReset (s : IntervalState) : IntervalState :=
  { s with run_count := 0, next_run_time := s.start_time }

/-- The scan loop of `TimestampTrigger.get_next_run_time`: walk the entries
from the cursor, skipping those at or below the millisecond threshold;
returns the first entry above the threshold (if any) and the final cursor. -/
def tsScan (thresholdMs : ℚ) : List ℤ → ℕ → Option ℤ × ℕ
| [], i => (none, i)
| t :: rest, i =>
    if thresholdMs < (t : ℚ) then (some t, i)
    else tsScan thresholdMs rest (i + 1)

/-- `TimestampTrigger.get_next_run_time`: compares entries against
`after_time * 1000` and returns the found entry divided by 1000, together with
the post-call state. -/
def tsGetNext (s : TimestampState) (after : ℚ) : Option ℚ × TimestampState :=
  let p := tsScan (after * 1000) (s.timestamps.drop s.current_index)
      s.current_index
  (p.1.map (fun t : ℤ => (t : ℚ) / 1000), { s with current_index := p.2 })

/-- `TimestampTrigger.is_finished`: `current_index >= len(timestamps)`. -/
def tsIsFinished (s : TimestampState) : Bool :=
  decide (s.timestamps.length ≤ s.current_index)

/-- `TimestampTrigger.reset`: cursor back to 0. -/
def tsReset (s : TimestampState) : TimestampState :=
  { s with current_index := 0 }

/-- `OneTimeTrigger.get_next_run_time`: `None` once executed; otherwise the
target instant on both branches of the past/future comparison (the source
keeps both branches, returning `run_time` either way). -/
def oneTimeGetNext (s : OneTimeState) (after : ℚ) : Option ℚ :=
  if s.executed then none
  else if after < s.run_time then some s.run_time
  else some s.run_time

/-- `OneTimeTrigger.is_finished`. -/
def oneTimeIsFinished (s : OneTimeState) : Bool := s.executed

/-- `OneTimeTrigger.mark_executed`. -/
def oneTimeMarkExecuted (s : OneTimeState) : OneTimeState :=
  { s with executed := true }

/-- `OneTimeTrigger.reset`. -/
def oneTimeReset (s : OneTimeState) : OneTimeState :=
  { s with executed := false }

/-- `CronTrigger.get_next_run_time`: `None` at the run cap; otherwise it
ignores `after_time` entirely, returns the occurrence at the croniter cursor,
and advances the cursor (`self._cron.get_next(datetime)`). -/
def cronGetNext (s : CronState) (after : ℚ) : Option ℚ × CronState :=
  if cronCapped s then (none, s)
  else (some (s.schedule s.cursor), { s with cursor := s.cursor + 1 })

/-- `CronTrigger.is_finished`. -/
def cronIsFinished (s : CronState) : Bool := cronCapped s

/-- `CronTrigger.mark_executed`. -/
def cronMarkExecuted (s : CronState) : CronState :=
  { s with run_count := s.run_count + 1 }

/-- `CronTrigger.reset`: run count 0 and a fresh croniter from the stored
expression and start time, i.e. the cursor back to the start of the occurrence
sequence. -/
def cronReset (s : CronState) : CronState :=
  { s with run_count := 0, cursor := 0 }

/-- A trigger of any of the four variants, as dispatched on in `Job._run`. -/
inductive TriggerState
| timestamp (s : TimestampState)
| interval (s : IntervalState)
| oneTime (s : OneTimeState)
| cron (s : CronState)

/-- `hasattr(self.trigger, 'mark_executed')` in `Job._run`: the base `Trigger`
class defines no `mark_executed`, and of the four variants only
`TimestampTrigger` omits it. -/
def hasMarkExecuted : TriggerState → Bool
| .timestamp _ => false
| .interval _ => true
| .oneTime _ => true
| .cron _ => true

/-- The `mark_executed` method of the variants that define one; identity on
`TimestampTrigger`, which has none (never reached behind the `hasattr`
guard). -/
def markExecuted : TriggerState → TriggerState
| .timestamp s => .timestamp s
| .interval s => .interval (intervalMarkExecuted s)
| .oneTime s => .oneTime (oneTimeMarkExecuted s)
| .cron s => .cron (cronMarkExecuted s)

/-- The per-dispatch trigger bookkeeping block of `Job._run`: call
`mark_executed` when the trigger has one (guarded by `hasattr`), then for a
`TimestampTrigger` advance `current_index` directly. -/
def dispatchMark (t : TriggerState) : TriggerState :=
  let t1 := if hasMarkExecuted t then markExecuted t else t
  match t1 with
  | .timestamp s => .timestamp { s with current_index := s.current_index + 1 }
  | other => other

/-- `Trigger.reset` dispatched over the four variants. -/
def resetTrigger : TriggerState → TriggerState
| .timestamp s => .timestamp (tsReset s)
| .interval s => .interval (intervalReset s)
| .oneTime s => .oneTime (oneTimeReset s)
| .cron s => .cron (cronReset s)

/-- The wait-duration computation of `Job._run` (lines 96-105): for the
Timestamp variant, `adjusted_run_time = start_time + (next_run_time -
start_time) + total_pause_duration` and the wait is `adjusted_run_time -
current_time`; for every other variant the wait is `next_run_time -
current_time`. -/
def computeWaitTime (tt : TriggerType) (start_time total_pause_duration
    next_run_time current_time : ℚ) : ℚ :=
  if tt = TriggerType.TIMESTAMP then
    (start_time + (next_run_time - start_time) + total_pause_duration)
      - current_time
  else
    next_run_time - current_time

/-- The fields of `Job` that its status machine touches (src/Job.py):
lifecycle status, the two threading signals, pause-start instant, cumulative
paused duration, and the execution counter. -/
structure JobState where
  status : JobStatus
  pause_event : Bool
  cancel_event : Bool
  pause_time : ℚ
  total_pause_duration : ℚ
  execution_count : ℕ
deriving DecidableEq

/-- `Job.pause`: returns true and sets the pause signal only when the status
is RUNNING; otherwise returns false and changes nothing. -/
def jobPause (s : JobState) : Bool × JobState :=
  if s.status = JobStatus.RUNNING then (true, { s with pause_event := true })
  else (false, s)

/-- `Job.resume`: returns true and clears the pause signal when the status is
PAUSED or the pause signal is set; otherwise returns false and changes
nothing. -/
def jobResume (s : JobState) : Bool × JobState :=
  if s.status = JobStatus.PAUSED ∨ s.pause_event = true then
    (true, { s with pause_event := false })
  else (false, s)

/-- `Job.cancel`: unconditionally set status REMOVED, set the cancel signal,
clear the pause signal. -/
def jobCancel (s : JobState) : JobState :=
  { s with
    status := JobStatus.REMOVED
    cancel_event := true
    pause_event := false }

/-- The pause-observation step of `Job._run`: when the pause signal is set and
the status is RUNNING, record the pause-start instant and move to PAUSED. -/
def jobPauseEnter (now : ℚ) (s : JobState) : JobState :=
  if s.pause_event = true ∧ s.status = JobStatus.RUNNING then
    { s with status := JobStatus.PAUSED, pause_time := now }
  else s

/-- The resume-accounting step of `Job._run` after the pause wait: when the
status is PAUSED and no cancel is signalled, accumulate the paused interval
and move back to RUNNING. -/
def jobPauseExit (now : ℚ) (s : JobState) : JobState :=
  if s.status = JobStatus.PAUSED ∧ s.cancel_event = false then
    { s with
      total_pause_duration := s.total_pause_duration + (now - s.pause_time)
      status := JobStatus.RUNNING }
  else s

/-- The loop-exit step of `Job._run`: mark COMPLETED unless the status is
already REMOVED. -/
def jobLoopExit (s : JobState) : JobState :=
  if s.status ≠ JobStatus.REMOVED then { s with status := JobStatus.COMPLETED }
  else s

/-- The operations of `Job` that can touch the status or the signals: the
three loop-internal steps and the three public calls. -/
inductive JobOp
| pauseEnter (now : ℚ)
| pauseExit (now : ℚ)
| loopExit
| pauseCall
| resumeCall
| cancelCall

/-- Apply one `Job` operation to the state. -/
def applyJobOp : JobOp → JobState → JobState
| .pauseEnter now, s => jobPauseEnter now s
| .pauseExit now, s => jobPauseExit now s
| .loopExit, s => jobLoopExit s
| .pauseCall, s => (jobPause s).2
| .resumeCall, s => (jobResume s).2
| .cancelCall, s => jobCancel s

/-- Apply a sequence of `Job` operations in order. -/
def applyJobOps (ops : List JobOp) (s : JobState) : JobState :=
  ops.foldl (fun t op => applyJobOp op t) s

/-- The trigger calls a `Job` issues between construction and `reset`:
`get_next_run_time` with some reference time, and the per-dispatch
bookkeeping (`mark_executed` plus the Timestamp cursor advance). -/
inductive TriggerOp
| getNext (after : ℚ)
| markExec

/-- Apply one trigger call to a trigger of any variant; a diverging Interval
anchor loop leaves the state unchanged (the call never returns). -/
def applyTriggerOp : TriggerOp → TriggerState → TriggerState
| .getNext T, .timestamp s => .timestamp (tsGetNext s T).2
| .getNext T, .interval s =>
    match intervalGetNext s T with
    | some (_, s1) => .interval s1
    | none => .interval s
| .getNext _, .oneTime s => .oneTime s
| .getNext T, .cron s => .cron (cronGetNext s T).2
| .markExec, t => dispatchMark t

/-- Apply a sequence of trigger calls in order. -/
def applyTriggerOps (ops : List TriggerOp) (t : TriggerState) : TriggerState :=
  ops.foldl (fun u op => applyTriggerOp op u) t

lemma advanceAnchor_of_lt (period after : ℚ) (fuel : ℕ) (anchor : ℚ)
    (h : after < anchor) : advanceAnchor period after fuel anchor = some anchor := by
  cases fuel with
  | zero => simp [advanceAnchor, not_le.mpr h]
  | succ n => simp [advanceAnchor, not_le.mpr h]

lemma advanceAnchor_reaches (period after : ℚ) :
    ∀ (fuel : ℕ) (anchor : ℚ), after < anchor + (fuel : ℚ) * period →
    ∃ r, advanceAnchor period after fuel anchor = some r ∧ after < r := by
  intro fuel
  induction fuel with
  | zero =>
    intro anchor h
    simp only [Nat.cast_zero, zero_mul, add_zero] at h
    exact ⟨anchor, advanceAnchor_of_lt period after 0 anchor h, h⟩
  | succ n ih =>
    intro anchor h
    by_cases hc : anchor ≤ after
    · have h2 : after < (anchor + period) + (n : ℚ) * period := by
        push_cast at h
        linarith
      obtain ⟨r, hr, har⟩ := ih (anchor + period) h2
      exact ⟨r, by simp [advanceAnchor, hc, hr], har⟩
    · exact ⟨anchor, by simp [advanceAnchor, hc], lt_of_not_le hc⟩

lemma fuelFor_reaches (period anchor after : ℚ) (hp : 0 < period) :
    after < anchor + (fuelFor period anchor after : ℚ) * period := by
  have hne : period ≠ 0 := ne_of_gt hp
  have h1 : (after - anchor) / period ≤ (⌈(after - anchor) / period⌉ : ℚ) :=
    Int.le_ceil _
  have h2 : ((⌈(after - anchor) / period⌉ : ℤ) : ℚ) ≤
      ((⌈(after - anchor) / period⌉.toNat : ℤ) : ℚ) := by
    exact_mod_cast Int.self_le_toNat _
  have hfuel : fuelFor period anchor after =
      ⌈(after - anchor) / period⌉.toNat + 1 := by
    simp [fuelFor, hp]
  have h3 : (after - anchor) / period < (fuelFor period anchor after : ℚ) := by
    rw [hfuel]
    push_cast
    push_cast at h2
    linarith
  have h4 : (after - anchor) / period * period = after - anchor :=
    div_mul_cancel₀ _ hne
  have h5 : (after - anchor) / period * period <
      (fuelFor period anchor after : ℚ) * period :=
    mul_lt_mul_of_pos_right h3 hp
  rw [h4] at h5
  linarith

lemma advanceAnchor_none (period after : ℚ) (hp : period ≤ 0) :
    ∀ (fuel : ℕ) (anchor : ℚ), anchor ≤ after →
    advanceAnchor period after fuel anchor = none := by
  intro fuel
  induction fuel with
  | zero => intro anchor h; simp [advanceAnchor, h]
  | succ n ih =>
    intro anchor h
    simp only [advanceAnchor, if_pos h]
    exact ih (anchor + period) (by linarith)

lemma tsScan_index_ge (th : ℚ) :
    ∀ (l : List ℤ) (i : ℕ), i ≤ (tsScan th l i).2 := by
  intro l
  induction l with
  | nil => intro i; simp [tsScan]
  | cons t rest ih =>
    intro i
    by_cases h : th < (t : ℚ)
    · simp [tsScan, h]
    · simp only [tsScan, if_neg h]
      exact le_trans (Nat.le_succ i) (ih (i + 1))

lemma tsScan_index_le (th : ℚ) :
    ∀ (l : List ℤ) (i : ℕ), (tsScan th l i).2 ≤ i + l.length := by
  intro l
  induction l with
  | nil => intro i; simp [tsScan]
  | cons t rest ih =>
    intro i
    by_cases h : th < (t : ℚ)
    · simp [tsScan, h]
    · simp only [tsScan, if_neg h, List.length_cons]
      have := ih (i + 1)
      omega

lemma tsScan_fst_find (th : ℚ) :
    ∀ (l : List ℤ) (i : ℕ),
    (tsScan th l i).1 = l.find? (fun t : ℤ => decide (th < (t : ℚ))) := by
  intro l
  induction l with
  | nil => intro i; simp [tsScan]
  | cons t rest ih =>
    intro i
    by_cases h : th < (t : ℚ)
    · simp [tsScan, h, List.find?]
    · simp [tsScan, h, List.find?, ih (i + 1)]

lemma tsScan_none_index (th : ℚ) :
    ∀ (l : List ℤ) (i : ℕ), (tsScan th l i).1 = none →
    (tsScan th l i).2 = i + l.length := by
  intro l
  induction l with
  | nil => intro i _; simp [tsScan]
  | cons t rest ih =>
    intro i h
    by_cases hc : th < (t : ℚ)
    · simp [tsScan, hc] at h
    · simp only [tsScan, if_neg hc] at h ⊢
      rw [ih (i + 1) h]
      simp
      omega

lemma tsScan_skipped_all (th : ℚ) :
    ∀ (l : List ℤ) (i : ℕ),
    (l.take ((tsScan th l i).2 - i)).all
      (fun t : ℤ => decide ((t : ℚ) ≤ th)) = true := by
  intro l
  induction l with
  | nil => intro i; simp [tsScan]
  | cons t rest ih =>
    intro i
    by_cases hc : th < (t : ℚ)
    · simp [tsScan, hc]
    · simp only [tsScan, if_neg hc]
      have h1 := tsScan_index_ge th rest (i + 1)
      have hk : (tsScan th rest (i + 1)).2 - i =
          ((tsScan th rest (i + 1)).2 - (i + 1)) + 1 := by omega
      rw [hk, List.take_succ_cons, List.all_cons]
      have h2 := ih (i + 1)
      simp only [h2, Bool.and_true]
      simpa using le_of_not_lt hc

lemma intervalGetNext_snd_reset (s : IntervalState) (T : ℚ)
    (p : Option ℚ × IntervalState) (h : intervalGetNext s T = some p) :
    intervalReset p.2 = intervalReset s := by
  unfold intervalGetNext at h
  by_cases hc : intervalCapped s = true
  · rw [if_pos hc] at h
    cases h
    rfl
  · rw [if_neg hc] at h
    cases hadv : advanceAnchor s.interval_seconds T
        (fuelFor s.interval_seconds s.next_run_time T) s.next_run_time with
    | none => rw [hadv] at h; cases h
    | some r =>
      rw [hadv] at h
      cases h
      rfl

lemma resetTrigger_applyTriggerOp (op : TriggerOp) (t : TriggerState) :
    resetTrigger (applyTriggerOp op t) = resetTrigger t := by
  cases op with
  | getNext T =>
    cases t with
    | timestamp s => rfl
    | interval s =>
      cases h : intervalGetNext s T with
      | none => simp [applyTriggerOp, h]
      | some p =>
        have hr := intervalGetNext_snd_reset s T p h
        simp [applyTriggerOp, h, resetTrigger, hr]
    | oneTime s => rfl
    | cron s =>
      show resetTrigger (.cron (cronGetNext s T).2) = resetTrigger (.cron s)
      unfold cronGetNext
      split <;> rfl
  | markExec => cases t <;> rfl

lemma resetTrigger_applyTriggerOps (ops : List TriggerOp) :
    ∀ t : TriggerState,
    resetTrigger (applyTriggerOps ops t) = resetTrigger t := by
  induction ops with
  | nil => intro t; rfl
  | cons op rest ih =>
    intro t
    show resetTrigger (applyTriggerOps rest (applyTriggerOp op t)) = _
    rw [ih (applyTriggerOp op t), resetTrigger_applyTriggerOp]

lemma applyJobOp_removed (op : JobOp) (s : JobState)
    (h : s.status = JobStatus.REMOVED) :
    (applyJobOp op s).status = JobStatus.REMOVED := by
  cases op with
  | pauseEnter now => simp [applyJobOp, jobPauseEnter, h]
  | pauseExit now => simp [applyJobOp, jobPauseExit, h]
  | loopExit => simp [applyJobOp, jobLoopExit, h]
  | pauseCall => simp [applyJobOp, jobPause, h]
  | resumeCall =>
    by_cases hp : s.pause_event = true
    · simp [applyJobOp, jobResume, hp, h]
    · simp [applyJobOp, jobResume, hp, h]
  | cancelCall => simp [applyJobOp, jobCancel]

/-- Claim C1: in the Job execution loop, when the trigger is the Timestamp
variant the wait duration before dispatch equals (next run time + cumulative
paused duration) minus current time, so pausing for a total duration D shifts
every remaining Timestamp-triggered execution forward in wall-clock time by
exactly D (the dispatch instant current + wait equals next + D, which exceeds
the uncompensated wait by exactly D); for every other trigger variant the
wait equals next run time minus current time, with no pause compensation. -/
theorem timestamp_wait_pause_compensation :
    ∀ (tt : TriggerType) (st D next now : ℚ),
    computeWaitTime TriggerType.TIMESTAMP st D next now = (next + D) - now ∧
    now + computeWaitTime TriggerType.TIMESTAMP st D next now = next + D ∧
    computeWaitTime TriggerType.TIMESTAMP st D next now =
      computeWaitTime TriggerType.TIMESTAMP st 0 next now + D ∧
    (tt ≠ TriggerType.TIMESTAMP →
      computeWaitTime tt st D next now = next - now ∧
      computeWaitTime tt st D next now = computeWaitTime tt st 0 next now) := by
  intro tt st D next now
  refine ⟨?_, ?_, ?_, ?_⟩
  · simp [computeWaitTime]
    try ring
  · simp [computeWaitTime]
    try ring
  · simp [computeWaitTime]
    try ring
  · intro h
    simp [computeWaitTime, h]

/-- Witness for C1 at the Interval variant with start 0, pause total 7,
next run 10, current time 4. -/
theorem timestamp_wait_pause_compensation_witness :
    TriggerType.INTERVAL ≠ TriggerType.TIMESTAMP ∧
    (computeWaitTime TriggerType.INTERVAL 0 7 10 4 = 10 - 4 ∧
     computeWaitTime TriggerType.INTERVAL 0 7 10 4 =
       computeWaitTime TriggerType.INTERVAL 0 0 10 4) :=
  ⟨by decide,
   (timestamp_wait_pause_compensation TriggerType.INTERVAL 0 7 10 4).2.2.2
     (by decide)⟩

/-- Claim C5: for every OneTimeTrigger on which mark_executed has not been
called, get_next_run_time returns the target instant for every reference
time, including reference times strictly after the target (never none); after
mark_executed is called, get_next_run_time returns none and is_finished
returns true. -/
theorem one_time_returns_target_until_executed :
    ∀ (s : OneTimeState) (T : ℚ),
    (s.executed = false → oneTimeGetNext s T = some s.run_time) ∧
    oneTimeGetNext (oneTimeMarkExecuted s) T = none ∧
    oneTimeIsFinished (oneTimeMarkExecuted s) = true := by
  intro s T
  refine ⟨?_, ?_, rfl⟩
  · intro h
    simp [oneTimeGetNext, h]
  · simp [oneTimeGetNext, oneTimeMarkExecuted]

/-- Witness for C5: a not-yet-executed trigger with target 1 queried at
reference time 5, strictly after the target. -/
theorem one_time_returns_target_witness :
    ({ run_time := 1, executed := false } : OneTimeState).executed = false ∧
    oneTimeGetNext { run_time := 1, executed := false } 5 = some 1 :=
  ⟨rfl, (one_time_returns_target_until_executed
    { run_time := 1, executed := false } 5).1 rfl⟩

/-- Claim C6: Job.pause() returns true and sets the pause signal if and only
if the current status is RUNNING, and otherwise returns false leaving all
state unchanged; Job.resume() returns true and clears the pause signal if and
only if the status is PAUSED or the pause signal is set, and otherwise
returns false; Job.cancel() always succeeds: it unconditionally sets the
status to REMOVED, sets the cancel signal, and clears the pause signal. -/
theorem job_pause_resume_cancel_contract :
    ∀ s : JobState,
    ((jobPause s).1 = true ↔ s.status = JobStatus.RUNNING) ∧
    (s.status = JobStatus.RUNNING →
      jobPause s = (true, { s with pause_event := true })) ∧
    (s.status ≠ JobStatus.RUNNING → jobPause s = (false, s)) ∧
    ((jobResume s).1 = true ↔
      (s.status = JobStatus.PAUSED ∨ s.pause_event = true)) ∧
    ((s.status = JobStatus.PAUSED ∨ s.pause_event = true) →
      jobResume s = (true, { s with pause_event := false })) ∧
    (¬(s.status = JobStatus.PAUSED ∨ s.pause_event = true) →
      jobResume s = (false, s)) ∧
    jobCancel s = { s with
      status := JobStatus.REMOVED
      cancel_event := true
      pause_event := false } := by
  intro s
  refine ⟨?_, ?_, ?_, ?_, ?_, ?_, rfl⟩
  · by_cases h : s.status = JobStatus.RUNNING <;> simp [jobPause, h]
  · intro h
    simp [jobPause, h]
  · intro h
    simp [jobPause, h]
  · by_cases h : s.status = JobStatus.PAUSED ∨ s.pause_event = true <;>
      simp [jobResume, h]
  · intro h
    simp [jobResume, h]
  · intro h
    simp [jobResume, h]

/-- Witness for C6: pausing a RUNNING job returns true and sets the pause
signal. -/
theorem job_pause_resume_cancel_contract_witness :
    (⟨JobStatus.RUNNING, false, false, 0, 0, 0⟩ : JobState).status =
      JobStatus.RUNNING ∧
    jobPause ⟨JobStatus.RUNNING, false, false, 0, 0, 0⟩ =
      (true, ⟨JobStatus.RUNNING, true, false, 0, 0, 0⟩) :=
  ⟨rfl, (job_pause_resume_cancel_contract
    ⟨JobStatus.RUNNING, false, false, 0, 0, 0⟩).2.1 rfl⟩

/-- Claim C7: REMOVED is terminal: once cancel() has set a Job's status to
REMOVED, no subsequent step of the execution loop or public operation (pause
handling, resume, or the loop-exit transition that marks COMPLETED) ever
changes the status to any other value. -/
theorem removed_status_terminal :
    ∀ (s : JobState), s.status = JobStatus.REMOVED →
    ∀ ops : List JobOp, (applyJobOps ops s).status = JobStatus.REMOVED := by
  intro s h ops
  revert s
  induction ops with
  | nil => intro s h; exact h
  | cons op rest ih =>
    intro s h
    exact ih (applyJobOp op s) (applyJobOp_removed op s h)

/-- Witness for C7: a cancelled job stays REMOVED across loop exit, a resume
call, a pause-observation step and a pause call. -/
theorem removed_status_terminal_witness :
    (applyJobOps [JobOp.loopExit, JobOp.resumeCall, JobOp.pauseEnter 3,
      JobOp.pauseCall] ⟨JobStatus.REMOVED, true, true, 0, 0, 0⟩).status =
      JobStatus.REMOVED :=
  removed_status_terminal ⟨JobStatus.REMOVED, true, true, 0, 0, 0⟩ rfl
    [JobOp.loopExit, JobOp.resumeCall, JobOp.pauseEnter 3, JobOp.pauseCall]

/-- Claim C2: for every IntervalTrigger with positive period that has not
reached its run cap, and every reference time T, get_next_run_time returns a
value strictly greater than T, and a second call with the same reference time
T and no intervening mark_executed returns the same value (idempotent
repeated calls). -/
theorem interval_next_future_and_idempotent :
    ∀ (s : IntervalState) (T : ℚ), 0 < s.interval_seconds →
    intervalCapped s = false →
    ∃ v, T < v ∧
      intervalGetNext s T = some (some v, { s with next_run_time := v }) ∧
      intervalGetNext { s with next_run_time := v } T =
        some (some v, { s with next_run_time := v }) := by
  intro s T hp hcap
  obtain ⟨r, hr, har⟩ := advanceAnchor_reaches s.interval_seconds T
    (fuelFor s.interval_seconds s.next_run_time T) s.next_run_time
    (fuelFor_reaches s.interval_seconds s.next_run_time T hp)
  refine ⟨r, har, ?_, ?_⟩
  · simp [intervalGetNext, hcap, hr]
  · have hcap2 : intervalCapped { s with next_run_time := r } = false := hcap
    have h1 := advanceAnchor_of_lt s.interval_seconds T
      (fuelFor s.interval_seconds r T) r har
    simp [intervalGetNext, hcap2, h1]

/-- Witness for C2: period 1, anchor 0, no cap, reference time 5/2. -/
theorem interval_next_future_and_idempotent_witness :
    (0 : ℚ) < 1 ∧ intervalCapped ⟨1, none, 0, 0, 0⟩ = false ∧
    ∃ v, (5 / 2 : ℚ) < v ∧
      intervalGetNext ⟨1, none, 0, 0, 0⟩ (5 / 2) =
        some (some v, { (⟨1, none, 0, 0, 0⟩ : IntervalState) with
          next_run_time := v }) ∧
      intervalGetNext { (⟨1, none, 0, 0, 0⟩ : IntervalState) with
          next_run_time := v } (5 / 2) =
        some (some v, { (⟨1, none, 0, 0, 0⟩ : IntervalState) with
          next_run_time := v }) :=
  ⟨by norm_num, rfl,
   interval_next_future_and_idempotent ⟨1, none, 0, 0, 0⟩ (5 / 2)
     (by norm_num) rfl⟩

/-- Claim C10: IntervalTrigger.get_next_run_time terminates for every
reference time whenever the period is strictly positive (the anchor-advance
loop exits within a computable iteration bound, with a result strictly past
the reference time); the constructor never validates positivity (it accepts
any period unchanged); and with a zero or negative period and an anchor at or
before the reference time the anchor-advance loop does not terminate (it
exhausts every fuel budget, so get_next_run_time on such a freshly
constructed trigger never returns). -/
theorem interval_loop_terminates_iff_positive_period :
    ∀ (period anchor after : ℚ),
    (0 < period → ∃ r, advanceAnchor period after
      (fuelFor period anchor after) anchor = some r ∧ after < r) ∧
    (period ≤ 0 → anchor ≤ after →
      ∀ fuel : ℕ, advanceAnchor period after fuel anchor = none) ∧
    (∀ m : Option ℕ,
      (mkIntervalTrigger period m anchor).interval_seconds = period) ∧
    (period ≤ 0 → anchor ≤ after →
      intervalGetNext (mkIntervalTrigger period none anchor) after = none) := by
  intro period anchor after
  refine ⟨?_, ?_, fun m => rfl, ?_⟩
  · intro hp
    exact advanceAnchor_reaches period after (fuelFor period anchor after)
      anchor (fuelFor_reaches period anchor after hp)
  · intro hp hle fuel
    exact advanceAnchor_none period after hp fuel anchor hle
  · intro hp hle
    have h1 := advanceAnchor_none period after hp
      (fuelFor period anchor after) anchor hle
    simp [intervalGetNext, mkIntervalTrigger, intervalCapped, h1]

/-- Witness for C10: period 1 terminates from anchor 0 at reference 2;
period -1 never terminates there and the constructed trigger's call
diverges. -/
theorem interval_loop_terminates_witness :
    (∃ r, advanceAnchor 1 2 (fuelFor 1 0 2) 0 = some r ∧ (2 : ℚ) < r) ∧
    advanceAnchor (-1) 2 5 0 = none ∧
    (mkIntervalTrigger (-1) none 0).interval_seconds = -1 ∧
    intervalGetNext (mkIntervalTrigger (-1) none 0) 2 = none :=
  ⟨(interval_loop_terminates_iff_positive_period 1 0 2).1 (by norm_num),
   (interval_loop_terminates_iff_positive_period (-1) 0 2).2.1
     (by norm_num) (by norm_num) 5,
   (interval_loop_terminates_iff_positive_period (-1) 0 2).2.2.1 none,
   (interval_loop_terminates_iff_positive_period (-1) 0 2).2.2.2
     (by norm_num) (by norm_num)⟩

/-- Claim C4: for every TimestampTrigger (integer millisecond entries with a
cursor) and every reference time T in seconds, get_next_run_time advances the
cursor past every entry less than or equal to T*1000 (the cursor never
regresses, every skipped entry is at most T*1000) and returns the first
remaining entry divided by 1000; when no remaining entry strictly exceeds
T*1000 it returns none and the cursor reaches the list length, and
is_finished is true exactly when the cursor has reached the list length. -/
theorem timestamp_get_next_contract :
    ∀ (s : TimestampState) (T : ℚ), s.current_index ≤ s.timestamps.length →
    s.current_index ≤ (tsGetNext s T).2.current_index ∧
    (tsGetNext s T).2.current_index ≤ s.timestamps.length ∧
    (tsGetNext s T).2.timestamps = s.timestamps ∧
    (tsGetNext s T).1 = ((s.timestamps.drop s.current_index).find?
      (fun t : ℤ => decide (T * 1000 < (t : ℚ)))).map
      (fun t : ℤ => (t : ℚ) / 1000) ∧
    ((s.timestamps.drop s.current_index).take
      ((tsGetNext s T).2.current_index - s.current_index)).all
      (fun t : ℤ => decide ((t : ℚ) ≤ T * 1000)) = true ∧
    ((tsGetNext s T).1 = none →
      (tsGetNext s T).2.current_index = s.timestamps.length) ∧
    (tsIsFinished (tsGetNext s T).2 = true ↔
      (tsGetNext s T).2.current_index = s.timestamps.length) := by
  intro s T hinv
  have hge := tsScan_index_ge (T * 1000)
    (s.timestamps.drop s.current_index) s.current_index
  have hle := tsScan_index_le (T * 1000)
    (s.timestamps.drop s.current_index) s.current_index
  have hlen : (s.timestamps.drop s.current_index).length =
      s.timestamps.length - s.current_index := List.length_drop _ _
  refine ⟨hge, ?_, rfl, ?_, ?_, ?_, ?_⟩
  · show (tsScan (T * 1000) (s.timestamps.drop s.current_index)
      s.current_index).2 ≤ s.timestamps.length
    omega
  · show (tsScan (T * 1000) (s.timestamps.drop s.current_index)
      s.current_index).1.map (fun t : ℤ => (t : ℚ) / 1000) = _
    rw [tsScan_fst_find]
  · exact tsScan_skipped_all (T * 1000)
      (s.timestamps.drop s.current_index) s.current_index
  · intro hnone
    have h1 : (tsScan (T * 1000) (s.timestamps.drop s.current_index)
        s.current_index).1 = none := by
      have h2 : (tsGetNext s T).1 = (tsScan (T * 1000)
          (s.timestamps.drop s.current_index)
          s.current_index).1.map (fun t : ℤ => (t : ℚ) / 1000) := rfl
      rw [h2] at hnone
      exact Option.map_eq_none'.mp hnone
    have h3 := tsScan_none_index (T * 1000)
      (s.timestamps.drop s.current_index) s.current_index h1
    show (tsScan (T * 1000) (s.timestamps.drop s.current_index)
      s.current_index).2 = s.timestamps.length
    omega
  · have ht : (tsGetNext s T).2.timestamps = s.timestamps := rfl
    have hc : (tsGetNext s T).2.current_index = (tsScan (T * 1000)
      (s.timestamps.drop s.current_index) s.current_index).2 := rfl
    simp only [tsIsFinished, ht, hc, decide_eq_true_eq]
    constructor
    · intro h
      omega
    · intro h
      omega

/-- Witness for C4: entries [1000, 2000] at reference time 3/2 (1500 ms):
the first entry is skipped and 2000 ms, i.e. 2 s, is returned. -/
theorem timestamp_get_next_contract_witness :
    (⟨[1000, 2000], 0⟩ : TimestampState).current_index ≤
      (⟨[1000, 2000], 0⟩ : TimestampState).timestamps.length ∧
    ((⟨[1000, 2000], 0⟩ : TimestampState).current_index ≤
      (tsGetNext ⟨[1000, 2000], 0⟩ (3 / 2)).2.current_index ∧
    (tsGetNext ⟨[1000, 2000], 0⟩ (3 / 2)).2.current_index ≤
      (⟨[1000, 2000], 0⟩ : TimestampState).timestamps.length ∧
    (tsGetNext ⟨[1000, 2000], 0⟩ (3 / 2)).2.timestamps =
      (⟨[1000, 2000], 0⟩ : TimestampState).timestamps ∧
    (tsGetNext ⟨[1000, 2000], 0⟩ (3 / 2)).1 =
      (((⟨[1000, 2000], 0⟩ : TimestampState).timestamps.drop
        (⟨[1000, 2000], 0⟩ : TimestampState).current_index).find?
        (fun t : ℤ => decide ((3 / 2 : ℚ) * 1000 < (t : ℚ)))).map
        (fun t : ℤ => (t : ℚ) / 1000) ∧
    (((⟨[1000, 2000], 0⟩ : TimestampState).timestamps.drop
      (⟨[1000, 2000], 0⟩ : TimestampState).current_index).take
      ((tsGetNext ⟨[1000, 2000], 0⟩ (3 / 2)).2.current_index -
        (⟨[1000, 2000], 0⟩ : TimestampState).current_index)).all
      (fun t : ℤ => decide ((t : ℚ) ≤ (3 / 2 : ℚ) * 1000)) = true ∧
    ((tsGetNext ⟨[1000, 2000], 0⟩ (3 / 2)).1 = none →
      (tsGetNext ⟨[1000, 2000], 0⟩ (3 / 2)).2.current_index =
        (⟨[1000, 2000], 0⟩ : TimestampState).timestamps.length) ∧
    (tsIsFinished (tsGetNext ⟨[1000, 2000], 0⟩ (3 / 2)).2 = true ↔
      (tsGetNext ⟨[1000, 2000], 0⟩ (3 / 2)).2.current_index =
        (⟨[1000, 2000], 0⟩ : TimestampState).timestamps.length)) :=
  ⟨by decide, timestamp_get_next_contract ⟨[1000, 2000], 0⟩ (3 / 2)
    (by decide)⟩

/-- Counterexample to claim C3: on an uncapped CronTrigger whose occurrence
sequence is 0, 1, 2, ..., two consecutive get_next_run_time calls at the same
reference time 0 return different instants (0 then 1), and the first call has
already advanced the cron cursor from 0 to 1. -/
theorem cron_repeated_call_counterexample :
    (cronGetNext ⟨fun n => (n : ℚ), none, 0, 0⟩ 0).1 = some 0 ∧
    (cronGetNext ((cronGetNext ⟨fun n => (n : ℚ), none, 0, 0⟩ 0).2) 0).1 =
      some 1 ∧
    (cronGetNext ⟨fun n => (n : ℚ), none, 0, 0⟩ 0).1 ≠
      (cronGetNext ((cronGetNext ⟨fun n => (n : ℚ), none, 0, 0⟩ 0).2) 0).1 ∧
    (cronGetNext ⟨fun n => (n : ℚ), none, 0, 0⟩ 0).2.cursor = 1 := by
  refine ⟨?_, ?_, ?_, rfl⟩
  · show some ((0 : ℕ) : ℚ) = some 0
    norm_num
  · show some ((1 : ℕ) : ℚ) = some 1
    norm_num
  · show some ((0 : ℕ) : ℚ) ≠ some ((1 : ℕ) : ℚ)
    simp

/-- Claim C3 amended: below the run cap, every call to
CronTrigger.get_next_run_time advances the internal cron cursor by one and
returns the occurrence at the pre-call cursor, ignoring the reference time
entirely; hence repeated calls at the same reference time with no intervening
mark_executed return successive occurrences, not the same instant. -/
theorem cron_get_next_advances_cursor :
    ∀ (s : CronState) (T1 T2 : ℚ), cronCapped s = false →
    cronGetNext s T1 =
      (some (s.schedule s.cursor), { s with cursor := s.cursor + 1 }) ∧
    cronGetNext s T1 = cronGetNext s T2 := by
  intro s T1 T2 h
  constructor <;> simp [cronGetNext, h]

/-- Witness for the amended C3 at an uncapped trigger with occurrence
sequence 0, 1, 2, ... and reference times 5 and 7. -/
theorem cron_get_next_advances_cursor_witness :
    cronCapped ⟨fun n => (n : ℚ), none, 0, 0⟩ = false ∧
    (cronGetNext ⟨fun n => (n : ℚ), none, 0, 0⟩ 5 =
      (some ((⟨fun n => (n : ℚ), none, 0, 0⟩ : CronState).schedule
        (⟨fun n => (n : ℚ), none, 0, 0⟩ : CronState).cursor),
       { (⟨fun n => (n : ℚ), none, 0, 0⟩ : CronState) with
         cursor := (⟨fun n => (n : ℚ), none, 0, 0⟩ : CronState).cursor + 1 }) ∧
     cronGetNext ⟨fun n => (n : ℚ), none, 0, 0⟩ 5 =
       cronGetNext ⟨fun n => (n : ℚ), none, 0, 0⟩ 7) :=
  ⟨rfl, cron_get_next_advances_cursor ⟨fun n => (n : ℚ), none, 0, 0⟩ 5 7 rfl⟩

/-- Counterexample to claim C8: the Timestamp variant provides no
mark_executed operation — the `hasattr` test in `Job._run` is false for a
TimestampTrigger, refuting "every Trigger variant provides a mark_executed
operation". -/
theorem timestamp_lacks_mark_executed :
    hasMarkExecuted (TriggerState.timestamp ⟨[1000], 0⟩) = false := rfl

/-- Claim C8 amended: the Interval, OneTime and Cron variants provide a
mark_executed operation and the Job execution loop's per-dispatch bookkeeping
invokes it exactly once per dispatched execution (one run-count increment,
one executed-flag set); the Timestamp variant provides none — the loop's
hasattr guard skips the call and the loop instead advances the Timestamp
cursor itself by exactly one per dispatch. -/
theorem trigger_mark_bookkeeping :
    ∀ (ts : TimestampState) (iv : IntervalState) (ot : OneTimeState)
      (cr : CronState),
    hasMarkExecuted (.timestamp ts) = false ∧
    hasMarkExecuted (.interval iv) = true ∧
    hasMarkExecuted (.oneTime ot) = true ∧
    hasMarkExecuted (.cron cr) = true ∧
    dispatchMark (.interval iv) =
      .interval { iv with run_count := iv.run_count + 1 } ∧
    dispatchMark (.oneTime ot) = .oneTime { ot with executed := true } ∧
    dispatchMark (.cron cr) = .cron { cr with run_count := cr.run_count + 1 } ∧
    dispatchMark (.timestamp ts) =
      .timestamp { ts with current_index := ts.current_index + 1 } := by
  intro ts iv ot cr
  exact ⟨rfl, rfl, rfl, rfl, rfl, rfl, rfl, rfl⟩

/-- Claim C9: for every trigger variant and every sequence of
get_next_run_time and per-dispatch bookkeeping calls, reset() restores the
trigger's mutable state (Timestamp cursor, Interval run count and anchor,
OneTime executed flag, Cron run count and cron cursor) to the initial
pre-execution state of a freshly constructed trigger with the same
configuration. -/
theorem trigger_reset_restores_initial_state :
    ∀ (ops : List TriggerOp) (l : List ℤ) (period start runAt : ℚ)
      (m1 m2 : Option ℕ) (sched : ℕ → ℚ),
    resetTrigger (applyTriggerOps ops (.timestamp (mkTimestampTrigger l))) =
      .timestamp (mkTimestampTrigger l) ∧
    resetTrigger (applyTriggerOps ops
      (.interval (mkIntervalTrigger period m1 start))) =
      .interval (mkIntervalTrigger period m1 start) ∧
    resetTrigger (applyTriggerOps ops (.oneTime (mkOneTimeTrigger runAt))) =
      .oneTime (mkOneTimeTrigger runAt) ∧
    resetTrigger (applyTriggerOps ops (.cron (mkCronTrigger sched m2))) =
      .cron (mkCronTrigger sched m2) := by
  intro ops l period start runAt m1 m2 sched
  refine ⟨?_, ?_, ?_, ?_⟩ <;> rw [resetTrigger_applyTriggerOps] <;> rfl

end ExtScheduler
